import Mathlib

/-!
# SignalBotApp (frontend/app.js): a shallow embedding

The browser client keeps its signals in the DOM: the children of the
`signals-list` element are the store, the three filter controls are the
criteria, and two text elements are the statistics.  The embedding keeps that
shape: the application state is the record of the elements the class reads
and writes, every method is a function on that record, and the JavaScript
built-ins the methods go through (`parseInt`, number-to-string conversion,
truthiness, strict comparison) are modelled from ECMAScript.

Number model.  Integer-valued fields (timeframe, thresholds, counters) are
`Int`; their text is the decimal numeral, which is what JavaScript prints for
every integer of magnitude below 10^21, and JavaScript holds integers exactly
up to 2^53.  Fractional fields (confidence, success rate, prices) are
`JSNumber`: the sign, the significant decimal digits and the decimal exponent
that Number::toString works from; comparisons are made on the exact value.

Markup.  `createSignalElement` writes the text fields of a signal into the
`innerHTML` of the card as they are, so a field that holds markup makes
elements inside the card, and `querySelectorAll('.signal-card')` finds those
of them that carry the class.  A card therefore keeps the markup written
into it and the number of `.signal-card` elements inside it, found by a
scanner that follows the tag, attribute and comment states of the HTML
tokenizer.  Left out of the scanner: character references, the contents of
raw text elements (script, style, textarea and the like) and the special
cases of tree construction; every start tag is taken to make an element, and
class names are compared as written (a page in standards mode).
-/

namespace SignalBot

/-! ## JavaScript built-ins -/

/-- White space and line terminators skipped by `parseInt` (StrWhiteSpaceChar). -/
def isStrWhiteSpace (c : Char) : Bool :=
  let v := c.toNat
  v == 0x09 || v == 0x0A || v == 0x0B || v == 0x0C || v == 0x0D || v == 0x20 ||
  v == 0xA0 || v == 0x1680 || (0x2000 ≤ v && v ≤ 0x200A) || v == 0x2028 ||
  v == 0x2029 || v == 0x202F || v == 0x205F || v == 0x3000 || v == 0xFEFF

/-- Value of a character as a digit of the given radix, if it is one. -/
def digitValue (radix : Nat) (c : Char) : Option Nat :=
  let v := c.toNat
  let d : Option Nat :=
    if 48 ≤ v ∧ v ≤ 57 then some (v - 48)
    else if 97 ≤ v ∧ v ≤ 122 then some (v - 87)
    else if 65 ≤ v ∧ v ≤ 90 then some (v - 55)
    else none
  match d with
  | some n => if n < radix then some n else none
  | none => none

/-- The longest run of radix digits at the start of the text, as digit values. -/
def takeDigits (radix : Nat) : List Char → List Nat
  | [] => []
  | c :: cs =>
    match digitValue radix c with
    | some d => d :: takeDigits radix cs
    | none => []

/-- Mathematical value of a digit sequence, most significant digit first. -/
def digitsValue (radix : Nat) (ds : List Nat) : Nat :=
  ds.foldl (fun acc d => acc * radix + d) 0

/-- Removes one leading sign character and returns the sign with the rest. -/
def splitSign : List Char → Int × List Char
  | c :: cs => if c = '-' then (-1, cs) else if c = '+' then (1, cs) else (1, c :: cs)
  | [] => (1, [])

/-- Removes a leading `0x` or `0X` and returns the radix with the rest. -/
def splitRadix : List Char → Nat × List Char
  | c :: d :: cs =>
    if c = '0' ∧ (d = 'x' ∨ d = 'X') then (16, cs) else (10, c :: d :: cs)
  | cs => (10, cs)

/-- JavaScript `parseInt(text)` with no radix argument; `none` is `NaN`. -/
def parseInt (text : String) : Option Int :=
  let trimmed := text.data.dropWhile isStrWhiteSpace
  let signed := splitSign trimmed
  let based := splitRadix signed.2
  let z := takeDigits based.1 based.2
  if z = [] then none else some (signed.1 * (digitsValue based.1 z : Nat))

/-- JavaScript `String(n)` for an integer-valued number. -/
def intToString (n : Int) : String := toString n

/-- A finite JavaScript number as Number::toString sees it: the sign, the
significant decimal digits `d1 ... dk` (no leading or trailing zero, empty
for zero) and the exponent `n`, standing for `0.d1...dk * 10^n`. -/
structure JSNumber where
  negative : Bool
  digits : List Nat
  exponent : Int
deriving DecidableEq

namespace JSNumber

/-- The digits are decimal, and the first and the last are not zero. -/
def WellFormed (x : JSNumber) : Prop :=
  (∀ d ∈ x.digits, d < 10) ∧ x.digits.head? ≠ some 0 ∧ x.digits.getLast? ≠ some 0

instance (x : JSNumber) : Decidable x.WellFormed := by
  unfold WellFormed; infer_instance

/-- Signed integer read off the digits. -/
def mantissa (x : JSNumber) : Int :=
  if x.negative then -(digitsValue 10 x.digits : Nat) else (digitsValue 10 x.digits : Nat)

/-- Power of ten the mantissa is scaled by: the value is `mantissa * 10^scale`. -/
def scale (x : JSNumber) : Int := x.exponent - x.digits.length

/-- The exact value. -/
def toRat (x : JSNumber) : ℚ := (x.mantissa : ℚ) * (10 : ℚ) ^ x.scale

/-- Numeric `x < m` against an integer, by cross-multiplication. -/
def ltInt (x : JSNumber) (m : Int) : Bool :=
  if 0 ≤ x.scale then decide (x.mantissa * 10 ^ x.scale.toNat < m)
  else decide (x.mantissa < m * 10 ^ (-x.scale).toNat)

/-- JavaScript `x < y` where `y` came out of `parseInt`: false against `NaN`. -/
def lt (x : JSNumber) (y : Option Int) : Bool :=
  match y with
  | some m => x.ltInt m
  | none => false

/-- ToBoolean of a number: every number but zero is truthy. -/
def truthy (x : JSNumber) : Bool := !(x.digits.all (· == 0))

/-- Number::toString in radix 10. -/
def numberToString (x : JSNumber) : String :=
  if x.digits = [] then "0" else
  let ds := x.digits.map Nat.digitChar
  let k : Int := ds.length
  let n := x.exponent
  let body : List Char :=
    if k ≤ n ∧ n ≤ 21 then ds ++ List.replicate (n - k).toNat '0'
    else if 0 < n ∧ n ≤ 21 then ds.take n.toNat ++ '.' :: ds.drop n.toNat
    else if -6 < n ∧ n ≤ 0 then '0' :: '.' :: (List.replicate (-n).toNat '0' ++ ds)
    else
      let e := n - 1
      let es := (if 0 ≤ e then '+' else '-') :: (Nat.repr e.natAbs).data
      if ds.length = 1 then ds ++ 'e' :: es
      else ds.take 1 ++ '.' :: (ds.drop 1 ++ 'e' :: es)
  String.mk (if x.negative then '-' :: body else body)

end JSNumber

/-- JavaScript `a < b` for two results of `parseInt`: false when either is `NaN`. -/
def parsedLt (a b : Option Int) : Bool :=
  match a, b with
  | some x, some y => decide (x < y)
  | _, _ => false

/-- JavaScript `Math.round`: the nearest integer, a tie going up. -/
def JSNumber.round (x : JSNumber) : Int :=
  if 0 ≤ x.scale then x.mantissa * 10 ^ x.scale.toNat
  else Int.fdiv (2 * x.mantissa + 10 ^ (-x.scale).toNat) (2 * 10 ^ (-x.scale).toNat)

/-- JavaScript `a || b` on an optional text: the first when it is there and
not empty, else the second. -/
def orElse (a : Option String) (b : String) : String :=
  match a with
  | some t => if t ≠ "" then t else b
  | none => b

/-! ## The HTML scanner behind `innerHTML` and `querySelectorAll` -/

/-- White space of the HTML tokenizer: tab, line feed, form feed, carriage
return, space. -/
def isHtmlSpace (c : Char) : Bool :=
  let v := c.toNat
  v == 9 || v == 10 || v == 12 || v == 13 || v == 32

/-- The white-space separated words of an attribute value; the first
argument is the word being read. -/
def splitTokens : List Char → List Char → List (List Char)
  | w, [] => if w = [] then [] else [w]
  | w, c :: cs =>
    if isHtmlSpace c then (if w = [] then splitTokens [] cs else w :: splitTokens [] cs)
    else splitTokens (w ++ [c]) cs

/-- The class attribute value holds the class `signal-card`. -/
def hasSignalCardClass (value : List Char) : Bool :=
  (splitTokens [] value).contains "signal-card".data

/-- The tag being read: an end tag or a start tag, whether a class attribute
has been read, and whether it held the class `signal-card`. -/
structure TagScan where
  closing : Bool
  classSeen : Bool
  hit : Bool
deriving DecidableEq

/-- States of the HTML tokenizer the scanner goes through. -/
inductive ScanState where
  | data
  | tagOpen
  | endTagOpen
  | bogusComment
  | markupDeclaration
  | markupDeclarationDash
  | commentStart
  | commentStartDash
  | comment
  | commentEndDash
  | commentEnd
  | commentEndBang
  | tagName (t : TagScan)
  | beforeAttributeName (t : TagScan)
  | attributeName (t : TagScan) (name : List Char)
  | afterAttributeName (t : TagScan) (name : List Char)
  | beforeAttributeValue (t : TagScan) (name : List Char)
  | attributeValue (t : TagScan) (name : List Char) (quote : Option Char) (value : List Char)
  | afterAttributeValue (t : TagScan)
  | selfClosingStartTag (t : TagScan)
deriving DecidableEq

/-- An attribute is complete: the first `class` attribute of a tag decides
whether the tag carries the class. -/
def finishAttribute (t : TagScan) (name value : List Char) : TagScan :=
  if name = "class".data ∧ t.classSeen = false then
    { t with classSeen := true, hit := hasSignalCardClass value }
  else t

/-- The tag is complete: back to data, counting a start tag with the class. -/
def emitTag (t : TagScan) : ScanState × Nat :=
  (ScanState.data, if t.hit = true ∧ t.closing = false then 1 else 0)

/-- The before-attribute-name state. -/
def beforeAttributeNameStep (t : TagScan) (c : Char) : ScanState × Nat :=
  if isHtmlSpace c then (ScanState.beforeAttributeName t, 0)
  else if c = '/' then (ScanState.selfClosingStartTag t, 0)
  else if c = '>' then emitTag t
  else (ScanState.attributeName t [c.toLower], 0)

/-- One character of markup: the next state, and 1 when the character
completes a start tag that carries the class `signal-card`. -/
def scanStep (st : ScanState) (c : Char) : ScanState × Nat :=
  match st with
  | ScanState.data => if c = '<' then (ScanState.tagOpen, 0) else (ScanState.data, 0)
  | ScanState.tagOpen =>
    if c = '!' then (ScanState.markupDeclaration, 0)
    else if c = '/' then (ScanState.endTagOpen, 0)
    else if c.isAlpha then
      (ScanState.tagName { closing := false, classSeen := false, hit := false }, 0)
    else if c = '?' then (ScanState.bogusComment, 0)
    else if c = '<' then (ScanState.tagOpen, 0)
    else (ScanState.data, 0)
  | ScanState.endTagOpen =>
    if c.isAlpha then
      (ScanState.tagName { closing := true, classSeen := false, hit := false }, 0)
    else if c = '>' then (ScanState.data, 0)
    else (ScanState.bogusComment, 0)
  | ScanState.bogusComment =>
    if c = '>' then (ScanState.data, 0) else (ScanState.bogusComment, 0)
  | ScanState.markupDeclaration =>
    if c = '-' then (ScanState.markupDeclarationDash, 0)
    else if c = '>' then (ScanState.data, 0)
    else (ScanState.bogusComment, 0)
  | ScanState.markupDeclarationDash =>
    if c = '-' then (ScanState.commentStart, 0)
    else if c = '>' then (ScanState.data, 0)
    else (ScanState.bogusComment, 0)
  | ScanState.commentStart =>
    if c = '-' then (ScanState.commentStartDash, 0)
    else if c = '>' then (ScanState.data, 0)
    else (ScanState.comment, 0)
  | ScanState.commentStartDash =>
    if c = '-' then (ScanState.commentEnd, 0)
    else if c = '>' then (ScanState.data, 0)
    else (ScanState.comment, 0)
  | ScanState.comment =>
    if c = '-' then (ScanState.commentEndDash, 0) else (ScanState.comment, 0)
  | ScanState.commentEndDash =>
    if c = '-' then (ScanState.commentEnd, 0) else (ScanState.comment, 0)
  | ScanState.commentEnd =>
    if c = '>' then (ScanState.data, 0)
    else if c = '!' then (ScanState.commentEndBang, 0)
    else if c = '-' then (ScanState.commentEnd, 0)
    else (ScanState.comment, 0)
  | ScanState.commentEndBang =>
    if c = '-' then (ScanState.commentEndDash, 0)
    else if c = '>' then (ScanState.data, 0)
    else (ScanState.comment, 0)
  | ScanState.tagName t =>
    if isHtmlSpace c then (ScanState.beforeAttributeName t, 0)
    else if c = '/' then (ScanState.selfClosingStartTag t, 0)
    else if c = '>' then emitTag t
    else (ScanState.tagName t, 0)
  | ScanState.beforeAttributeName t => beforeAttributeNameStep t c
  | ScanState.attributeName t name =>
    if isHtmlSpace c then (ScanState.afterAttributeName t name, 0)
    else if c = '/' then (ScanState.selfClosingStartTag (finishAttribute t name []), 0)
    else if c = '>' then emitTag (finishAttribute t name [])
    else if c = '=' then (ScanState.beforeAttributeValue t name, 0)
    else (ScanState.attributeName t (name ++ [c.toLower]), 0)
  | ScanState.afterAttributeName t name =>
    if isHtmlSpace c then (ScanState.afterAttributeName t name, 0)
    else if c = '/' then (ScanState.selfClosingStartTag (finishAttribute t name []), 0)
    else if c = '=' then (ScanState.beforeAttributeValue t name, 0)
    else if c = '>' then emitTag (finishAttribute t name [])
    else (ScanState.attributeName (finishAttribute t name []) [c.toLower], 0)
  | ScanState.beforeAttributeValue t name =>
    if isHtmlSpace c then (ScanState.beforeAttributeValue t name, 0)
    else if c = '"' ∨ c = Char.ofNat 39 then (ScanState.attributeValue t name (some c) [], 0)
    else if c = '>' then emitTag (finishAttribute t name [])
    else (ScanState.attributeValue t name none [c], 0)
  | ScanState.attributeValue t name (some q) value =>
    if c = q then (ScanState.afterAttributeValue (finishAttribute t name value), 0)
    else (ScanState.attributeValue t name (some q) (value ++ [c]), 0)
  | ScanState.attributeValue t name none value =>
    if isHtmlSpace c then (ScanState.beforeAttributeName (finishAttribute t name value), 0)
    else if c = '>' then emitTag (finishAttribute t name value)
    else (ScanState.attributeValue t name none (value ++ [c]), 0)
  | ScanState.afterAttributeValue t =>
    if isHtmlSpace c then (ScanState.beforeAttributeName t, 0)
    else if c = '/' then (ScanState.selfClosingStartTag t, 0)
    else if c = '>' then emitTag t
    else beforeAttributeNameStep t c
  | ScanState.selfClosingStartTag t =>
    if c = '>' then emitTag t else beforeAttributeNameStep t c

/-- The number of start tags with the class `signal-card` in the markup read
from the given state. -/
@[irreducible]
def scanMarkup : ScanState → List Char → Nat
  | _, [] => 0
  | st, c :: cs => (scanStep st c).2 + scanMarkup (scanStep st c).1 cs

/-- The state of the scanner after the markup. -/
def scanEnd : ScanState → List Char → ScanState
  | st, [] => st
  | st, c :: cs => scanEnd (scanStep st c).1 cs

/-- The number of `.signal-card` elements the markup makes when it is
assigned to `innerHTML`. -/
def matchingElements (markup : String) : Nat :=
  scanMarkup ScanState.data markup.data

/-! ## Data model -/

/-- One signal as the backend sends it.  Only `direction`, `confidence` and
`timeframe` are read by the filters; the other fields are rendered. -/
structure Signal where
  asset : String
  asset_name : Option String
  direction : String
  confidence : JSNumber
  timeframe : Int
  timeframe_text : String
  reason : Option String
  entry_price : Option JSNumber
  take_profit : Option JSNumber
  stop_loss : Option JSNumber
  human_time : String
deriving DecidableEq

/-- The inline `style.display` of a card. -/
inductive Display where
  | unset
  | block
  | none
deriving DecidableEq

/-- A `div.signal-card` element made by `createSignalElement`: its class, its
`dataset`, the markup assigned to its `innerHTML`, the number of
`.signal-card` elements now inside it, and its inline display.  The field
`content` records the signal the card was made from; the class never reads
it, it names the signals the list holds. -/
structure SignalCard where
  className : String
  dataConfidence : String
  dataTimeframe : String
  dataDirection : String
  innerHTML : String
  inner : Nat
  content : Signal
  display : Display
deriving DecidableEq

/-- An element found by `querySelectorAll('.signal-card')`: a card of the
list, or a `.signal-card` element inside a card. -/
inductive CardElement where
  | card (c : SignalCard)
  | inner
deriving DecidableEq

/-- A child of the `signals-list` element. -/
inductive Node where
  | text
  | noSignals
  | card (c : SignalCard)
deriving DecidableEq

/-- The elements collected by `initializeElements`, each by the part of it
the class reads or writes. -/
structure Elements where
  signalsList : List Node
  statusDotClass : String
  statusText : String
  lastUpdate : String
  totalSignals : String
  confidenceFilter : String
  confidenceValue : String
  timeframeFilter : String
  directionFilter : String
  successRate : String
  totalGenerated : String
deriving DecidableEq

/-- Functions the class hands to `setTimeout`. -/
inductive Callback where
  | connectWebSocket
deriving DecidableEq

/-- A pending `setTimeout`. -/
structure Timeout where
  callback : Callback
  delay : Nat
deriving DecidableEq

/-- The application: the elements, and what it has asked of the outside. -/
structure SignalBotApp where
  elements : Elements
  lastUpdate : Option Nat
  timeouts : List Timeout
  socketsCreated : Nat
  sent : List String
  console : List String
  chimes : Nat
deriving DecidableEq

/-- The argument of `updateStats`: a status response, or the object
`addSignal` builds.  A field is `none` when the object does not have it. -/
structure StatsData where
  total_signals_generated : Option Int
  success_rate : Option JSNumber
deriving DecidableEq

/-- What `JSON.parse` makes of an inbound payload, by its `type` field. -/
inductive Inbound where
  | new_signal (data : Signal)
  | signals (data : Option (List Signal))
  | other
deriving DecidableEq

/-- The time `updateLastUpdateTime` reads: the instant and its local text. -/
structure Clock where
  now : Nat
  timeString : String

/-- The elements `querySelectorAll('.signal-card')` finds in the list, in
document order: each card, followed by the `.signal-card` elements inside it. -/
def signalCards : List Node → List CardElement
  | [] => []
  | Node.card c :: rest =>
    CardElement.card c :: (List.replicate c.inner CardElement.inner ++ signalCards rest)
  | _ :: rest => signalCards rest

/-- The list after `signalCards[signalCards.length - 1].remove()`.  The last
element found, in document order, has no `.signal-card` element inside it, so
exactly one found element goes: an element inside the last card when that
card has one, else the last card itself. -/
def removeLastCard : List Node → List Node
  | [] => []
  | Node.card c :: rest =>
    if signalCards rest = [] then
      (if c.inner = 0 then rest else Node.card { c with inner := c.inner - 1 } :: rest)
    else Node.card c :: removeLastCard rest
  | x :: rest => x :: removeLastCard rest

/-- The cards that are children of the list, in order. -/
def listCards : List Node → List SignalCard
  | [] => []
  | Node.card c :: rest => c :: listCards rest
  | _ :: rest => listCards rest

/-! ## The methods of SignalBotApp -/

/-- Method `updateConnectionStatus(connected)`. -/
def updateConnectionStatus (connected : Bool) (app : SignalBotApp) : SignalBotApp :=
  if connected then
    { app with elements :=
        { app.elements with statusDotClass := "status-dot connected", statusText := "Підключено" } }
  else
    { app with elements :=
        { app.elements with statusDotClass := "status-dot", statusText := "Відключено" } }

/-- Method `updateStats(data)`: each field is written when it is truthy. -/
def updateStats (data : StatsData) (app : SignalBotApp) : SignalBotApp :=
  let app1 :=
    match data.total_signals_generated with
    | some v =>
      if v ≠ 0 then { app with elements := { app.elements with totalGenerated := intToString v } }
      else app
    | none => app
  match data.success_rate with
  | some r =>
    if r.truthy then
      { app1 with elements := { app1.elements with successRate := r.numberToString ++ "%" } }
    else app1
  | none => app1

/-- Method `fetchStatus()`, given the outcome of the request: the parsed body
of a successful response, or `none` when the request or the response failed. -/
def fetchStatus (response : Option StatsData) (app : SignalBotApp) : SignalBotApp :=
  match response with
  | some data => updateStats data app
  | none => { app with console := app.console ++ ["Error fetching status:"] }

/-- Method `filterSignalList(signals)`. -/
def filterSignalList (app : SignalBotApp) (signals : List Signal) : List Signal :=
  let minConfidence := parseInt app.elements.confidenceFilter
  let timeframeFilter := app.elements.timeframeFilter
  let directionFilter := app.elements.directionFilter
  signals.filter fun signal =>
    if signal.confidence.lt minConfidence then false
    else if timeframeFilter ≠ "all" ∧ some signal.timeframe ≠ parseInt timeframeFilter then false
    else if directionFilter ≠ "all" ∧ signal.direction ≠ directionFilter then false
    else true

/-- One optional line of the `signal-info` block: the markup of an
`info-item` with its icon, its label and the value. -/
def infoItem (icon label value : String) : String :=
  "<div class=\"info-item\">\n                    <span><i class=\"fas " ++ icon
    ++ "\"></i> " ++ label ++ "</span>\n                    <span>" ++ value
    ++ "</span>\n                </div>"

/-- The line of the template for `signal.reason`: the item when the reason
is there and not empty, else nothing. -/
def reasonItem (signal : Signal) : String :=
  match signal.reason with
  | some r => if r ≠ "" then infoItem "fa-comment" "Причина:" r else ""
  | none => ""

/-- The line of the template for a price: the item when the price is there
and not zero, else nothing. -/
def priceItem (icon label : String) (price : Option JSNumber) : String :=
  match price with
  | some v => if v.truthy then infoItem icon label v.numberToString else ""
  | none => ""

/-- The constant `confidenceColor` of `createSignalElement`. -/
def confidenceColor (confidencePercent : Int) : String :=
  if confidencePercent ≥ 85 then "#2ed573"
  else if confidencePercent ≥ 75 then "#ffa502" else "#ff4757"

/-- The constant `directionIcon` of `createSignalElement`. -/
def directionIcon (direction : String) : String :=
  if direction = "up" then "<i class=\"fas fa-arrow-up\"></i>"
  else "<i class=\"fas fa-arrow-down\"></i>"

/-- The constant `directionText` of `createSignalElement`. -/
def directionText (direction : String) : String :=
  if direction = "up" then "CALL (ВВЕРХ)" else "PUT (ВНИЗ)"

/-- The template literal `createSignalElement` assigns to `innerHTML`: the
fields of the signal go into the markup as they are. -/
def signalMarkup (signal : Signal) : String :=
  let confidencePercent := signal.confidence.round
  "\n            <div class=\"signal-header\">\n                <div class=\"asset-name\">"
    ++ orElse signal.asset_name signal.asset
    ++ "</div>\n                <div class=\"timeframe\">" ++ signal.timeframe_text
    ++ "</div>\n            </div>\n            \n            <div class=\"direction "
    ++ signal.direction ++ "\">\n                " ++ directionIcon signal.direction ++ " "
    ++ directionText signal.direction
    ++ "\n            </div>\n            \n            <div class=\"confidence\">\n"
    ++ "                <div class=\"confidence-text\">\n"
    ++ "                    <span>Впевненість:</span>\n"
    ++ "                    <span style=\"color: " ++ confidenceColor confidencePercent ++ "\">"
    ++ signal.confidence.numberToString ++ "%</span>\n                </div>\n"
    ++ "                <div class=\"confidence-bar\">\n"
    ++ "                    <div class=\"confidence-fill\" style=\"width: "
    ++ intToString confidencePercent ++ "%\"></div>\n                </div>\n"
    ++ "            </div>\n            \n            <div class=\"signal-info\">\n"
    ++ "                "
    ++ reasonItem signal
    ++ "\n                \n                "
    ++ priceItem "fa-dollar-sign" "Ціна входу:" signal.entry_price
    ++ "\n                \n                "
    ++ priceItem "fa-trophy" "Тейк1-профіт:" signal.take_profit
    ++ "\n                \n                "
    ++ priceItem "fa-shield-alt" "Стоп-лосс:" signal.stop_loss
    ++ "\n            </div>\n            \n            <div class=\"signal-time\">\n"
    ++ "                <i class=\"far fa-clock\"></i> " ++ signal.human_time
    ++ "\n            </div>\n        "

/-- Method `createSignalElement(signal)`. -/
def createSignalElement (signal : Signal) : SignalCard :=
  { className := "signal-card " ++ signal.direction
    dataConfidence := signal.confidence.numberToString
    dataTimeframe := intToString signal.timeframe
    dataDirection := signal.direction
    innerHTML := signalMarkup signal
    inner := matchingElements (signalMarkup signal)
    content := signal
    display := Display.unset }

/-- The test `filterSignals` makes on one card. -/
def shouldShow (app : SignalBotApp) (element : SignalCard) : Bool :=
  let confidence := parseInt element.dataConfidence
  let timeframe := element.dataTimeframe
  let direction := element.dataDirection
  let minConfidence := parseInt app.elements.confidenceFilter
  let timeframeFilter := app.elements.timeframeFilter
  let directionFilter := app.elements.directionFilter
  let s1 := if parsedLt confidence minConfidence then false else true
  let s2 := if timeframeFilter ≠ "all" ∧ timeframe ≠ timeframeFilter then false else s1
  if directionFilter ≠ "all" ∧ direction ≠ directionFilter then false else s2

/-- Method `filterSignals()`: sets the display of every card in the list.
The loop also styles the `.signal-card` elements inside a card; their display
is not kept, a card is shown or hidden by its own. -/
def filterSignals (app : SignalBotApp) : SignalBotApp :=
  let restyle : Node → Node
    | Node.card c =>
      Node.card { c with display := if shouldShow app c then Display.block else Display.none }
    | x => x
  { app with elements := { app.elements with signalsList := app.elements.signalsList.map restyle } }

/-- Method `displaySignals(signals)`; `none` is a missing (falsy) argument. -/
def displaySignals (signals : Option (List Signal)) (app : SignalBotApp) : SignalBotApp :=
  match signals with
  | none =>
    { app with elements :=
        { app.elements with signalsList := [Node.text, Node.noSignals, Node.text] } }
  | some [] =>
    { app with elements :=
        { app.elements with signalsList := [Node.text, Node.noSignals, Node.text] } }
  | some (s :: rest) =>
    let filteredSignals := filterSignalList app (s :: rest)
    { app with elements :=
        { app.elements with
          signalsList := filteredSignals.map fun signal => Node.card (createSignalElement signal)
          totalSignals := "Сигналів сьогодні: " ++ toString filteredSignals.length } }

/-- Method `addSignal(signal)`. -/
def addSignal (signal : Signal) (app : SignalBotApp) : SignalBotApp :=
  let element := Node.card (createSignalElement signal)
  let inserted :=
    match app.elements.signalsList with
    | first :: rest => element :: first :: rest
    | [] => [element]
  let maxSignals := 20
  let cards := signalCards inserted
  let kept := if cards.length > maxSignals then removeLastCard inserted else inserted
  updateStats { total_signals_generated := some (cards.length : Int), success_rate := none }
    { app with elements := { app.elements with signalsList := kept } }

/-- The listener `setupEventListeners` puts on the confidence control, run
after the control has taken the value. -/
def confidenceInput (value : String) (app : SignalBotApp) : SignalBotApp :=
  filterSignals
    { app with elements :=
        { app.elements with confidenceFilter := value, confidenceValue := value ++ "%" } }

/-- The listener on the timeframe control, run after it has taken the value. -/
def timeframeChange (value : String) (app : SignalBotApp) : SignalBotApp :=
  filterSignals { app with elements := { app.elements with timeframeFilter := value } }

/-- The listener on the direction control, run after it has taken the value. -/
def directionChange (value : String) (app : SignalBotApp) : SignalBotApp :=
  filterSignals { app with elements := { app.elements with directionFilter := value } }

/-- Method `playNotificationSound()`. -/
def playNotificationSound (app : SignalBotApp) : SignalBotApp :=
  { app with chimes := app.chimes + 1 }

/-- Method `updateLastUpdateTime()`. -/
def updateLastUpdateTime (clock : Clock) (app : SignalBotApp) : SignalBotApp :=
  { app with
    elements := { app.elements with lastUpdate := "Оновлення: " ++ clock.timeString }
    lastUpdate := some clock.now }

/-- Method `connectWebSocket()`: a new socket is created and the four
handlers below are installed on it.  The socket address is a constant of the
class, so the constructor is taken to succeed. -/
def connectWebSocket (app : SignalBotApp) : SignalBotApp :=
  { app with socketsCreated := app.socketsCreated + 1 }

/-- Handler `socket.onopen`. -/
def onopen (app : SignalBotApp) : SignalBotApp :=
  let app1 := updateConnectionStatus true
    { app with console := app.console ++ ["WebSocket connected"] }
  { app1 with sent := app1.sent ++ ["get_signals"] }

/-- Handler `socket.onmessage`, over the `JSON.parse` of the platform.  An
`Except.error` result is an exception leaving the handler. -/
def onmessage (jsonParse : String → Except String Inbound) (clock : Clock)
    (eventData : String) (app : SignalBotApp) : Except String SignalBotApp := do
  let data ← jsonParse eventData
  let app1 :=
    match data with
    | Inbound.new_signal signal => playNotificationSound (addSignal signal app)
    | Inbound.signals signals => displaySignals signals app
    | Inbound.other => app
  return updateLastUpdateTime clock app1

/-- Handler `socket.onclose`. -/
def onclose (app : SignalBotApp) : SignalBotApp :=
  let app1 := updateConnectionStatus false
    { app with console := app.console ++ ["WebSocket disconnected"] }
  { app1 with timeouts := app1.timeouts ++ [{ callback := Callback.connectWebSocket, delay := 5000 }] }

/-- Handler `socket.onerror`. -/
def onerror (app : SignalBotApp) : SignalBotApp :=
  updateConnectionStatus false { app with console := app.console ++ ["WebSocket error:"] }

/-- Runs the callback of a timeout that has come due. -/
def runCallback (cb : Callback) (app : SignalBotApp) : SignalBotApp :=
  match cb with
  | Callback.connectWebSocket => connectWebSocket app

/-- Lets every pending timeout come due, in the order they were set. -/
def runTimeouts (app : SignalBotApp) : SignalBotApp :=
  app.timeouts.foldl (fun a t => runCallback t.callback a) { app with timeouts := [] }

/-! ## Derived views -/

/-- The signals held by the list, newest first: one for each card that is a
child of the list. -/
def storeSignals (app : SignalBotApp) : List Signal :=
  (listCards app.elements.signalsList).map (·.content)

/-- The signals of the cards the page shows: those not styled `display: none`. -/
def visibleSignals (app : SignalBotApp) : List Signal :=
  ((listCards app.elements.signalsList).filter (·.display ≠ Display.none)).map (·.content)

/-- The connection indicator reads connected. -/
def isConnected (app : SignalBotApp) : Bool :=
  app.elements.statusDotClass == "status-dot connected"

/-- A direction a signal can be filtered by. -/
inductive Direction where
  | up
  | down
deriving DecidableEq

/-- The text of a direction, as signals and the direction control carry it. -/
def Direction.text : Direction → String
  | Direction.up => "up"
  | Direction.down => "down"

/-- The filter criteria of the data model; `none` is the choice "all". -/
structure FilterCriteria where
  minConfidence : Int
  timeframe : Option Int
  direction : Option Direction
deriving DecidableEq

/-- The application with its three filter controls set to the criteria. -/
def setControls (c : FilterCriteria) (app : SignalBotApp) : SignalBotApp :=
  { app with elements :=
      { app.elements with
        confidenceFilter := intToString c.minConfidence
        timeframeFilter := match c.timeframe with
          | some t => intToString t
          | none => "all"
        directionFilter := match c.direction with
          | some d => d.text
          | none => "all" } }

/-- The predicate of the specification: a signal satisfies the criteria. -/
def Satisfies (c : FilterCriteria) (s : Signal) : Prop :=
  (c.minConfidence : ℚ) ≤ s.confidence.toRat ∧
  (c.timeframe = none ∨ c.timeframe = some s.timeframe) ∧
  (c.direction = none ∨ c.direction.map Direction.text = some s.direction)

/-- A page with no signal on it, disconnected, with the controls at
minimum confidence 0, timeframe "all" and direction "all". -/
def emptyApp : SignalBotApp :=
  { elements :=
      { signalsList := []
        statusDotClass := "status-dot"
        statusText := "Відключено"
        lastUpdate := ""
        totalSignals := ""
        confidenceFilter := "0"
        confidenceValue := "0%"
        timeframeFilter := "all"
        directionFilter := "all"
        successRate := ""
        totalGenerated := "" }
    lastUpdate := none
    timeouts := []
    socketsCreated := 0
    sent := []
    console := []
    chimes := 0 }

/-- A signal with the three fields the filters read, and nothing else. -/
def plainSignal (confidence : JSNumber) (direction : String) (timeframe : Int) : Signal :=
  { asset := "", asset_name := none, direction := direction, confidence := confidence,
    timeframe := timeframe, timeframe_text := "", reason := none, entry_price := none,
    take_profit := none, stop_loss := none, human_time := "" }

/-- A signal of confidence 80 and direction "up" whose `reason` is the
markup of an empty `div` with the classes `signal-card up`; the timeframe
tells such signals apart. -/
def markupSignal (timeframe : Int) : Signal :=
  { asset := "", asset_name := none, direction := "up",
    confidence := { negative := false, digits := [8], exponent := 2 },
    timeframe := timeframe, timeframe_text := "",
    reason := some "<div class=\"signal-card up\"></div>", entry_price := none,
    take_profit := none, stop_loss := none, human_time := "" }

/-- The number `d * 10` for a digit `d` from 1 to 9: the confidences 80, 70,
90 and 10 of the scenarios are `tens 8`, `tens 7`, `tens 9` and `tens 1`. -/
def tens (d : Nat) : JSNumber := { negative := false, digits := [d], exponent := 2 }

/-- An integer that JavaScript holds exactly and prints as its numeral. -/
def SafeInteger (n : Int) : Prop := -(2 ^ 53 : Int) < n ∧ n < 2 ^ 53

/-- The text holds no `<`, so it makes no element where it stands as content. -/
def noMarkup (t : String) : Bool := !t.data.contains '<'

/-- A signal whose text is plain: the direction is "up" or "down" and no
text field holds a `<`. -/
def PlainSignal (s : Signal) : Prop :=
  (s.direction = "up" ∨ s.direction = "down") ∧
  noMarkup s.asset = true ∧ s.asset_name.all noMarkup = true ∧
  noMarkup s.timeframe_text = true ∧ s.reason.all noMarkup = true ∧
  noMarkup s.human_time = true

instance (s : Signal) : Decidable (PlainSignal s) := by
  unfold PlainSignal; infer_instance

/-- No card of the list has a `.signal-card` element inside it. -/
def NoInner (l : List Node) : Prop := ∀ c ∈ listCards l, c.inner = 0

/-- A number that is not negative and prints without an exponent: zero, or
a number from 0.000001 up to, not including, 10^21. -/
def JSNumber.Positional (x : JSNumber) : Prop :=
  x.negative = false ∧ (x.digits = [] ∨ (-6 < x.exponent ∧ x.exponent ≤ 21))

/-- The decimal digits of a natural number, most significant first. -/
def decimalDigits (n : Nat) : List Nat :=
  if n = 0 then [0] else (Nat.digits 10 n).reverse

/-! ## Facts about the built-ins -/

theorem digitValue_digitChar (d : Nat) (h : d < 10) : digitValue 10 (Nat.digitChar d) = some d := by
  interval_cases d <;> decide

theorem digitChar_plain (d : Nat) (h : d < 10) :
    isStrWhiteSpace (Nat.digitChar d) = false ∧ Nat.digitChar d ≠ '-' ∧ Nat.digitChar d ≠ '+' ∧
    Nat.digitChar d ≠ 'x' ∧ Nat.digitChar d ≠ 'X' := by
  interval_cases d <;> decide

theorem takeDigits_map_digitChar (ds : List Nat) (h : ∀ d ∈ ds, d < 10) (rest : List Char)
    (hrest : takeDigits 10 rest = []) :
    takeDigits 10 (ds.map Nat.digitChar ++ rest) = ds := by
  induction ds with
  | nil => simpa using hrest
  | cons d ds ih =>
    have hd : d < 10 := h d (List.mem_cons_self _ _)
    have ih1 := ih (fun x hx => h x (List.mem_cons_of_mem _ hx))
    simp [takeDigits, digitValue_digitChar d hd, ih1]

/-- The text `ds ++ rest` of decimal digits followed by something that is
neither a digit nor a radix mark parses to the value of the digits. -/
theorem parseInt_digits (ds : List Nat) (h : ∀ d ∈ ds, d < 10) (hne : ds ≠ []) (rest : List Char)
    (hrest : takeDigits 10 rest = []) (hx : rest.head? ≠ some 'x' ∧ rest.head? ≠ some 'X') :
    parseInt (String.mk (ds.map Nat.digitChar ++ rest))
      = some ((digitsValue 10 ds : Nat) : Int) := by
  obtain ⟨d, tl, rfl⟩ := List.exists_cons_of_ne_nil hne
  have hd : d < 10 := h d (List.mem_cons_self _ _)
  obtain ⟨hw, hm, hp, hx, hX⟩ := digitChar_plain d hd
  have htake := takeDigits_map_digitChar (d :: tl) h rest hrest
  have hsign : splitSign (Nat.digitChar d :: (tl.map Nat.digitChar ++ rest))
      = (1, Nat.digitChar d :: (tl.map Nat.digitChar ++ rest)) := by
    simp [splitSign, hm, hp]
  have hradix : splitRadix (Nat.digitChar d :: (tl.map Nat.digitChar ++ rest))
      = (10, Nat.digitChar d :: (tl.map Nat.digitChar ++ rest)) := by
    cases htl : tl.map Nat.digitChar ++ rest with
    | nil => simp [splitRadix]
    | cons c cs =>
      have hc : c ≠ 'x' ∧ c ≠ 'X' := by
        cases tl with
        | nil =>
          simp at htl
          subst htl
          simpa using hx
        | cons e tl2 =>
          simp at htl
          have he : e < 10 := h e (by simp)
          obtain ⟨-, -, -, h1, h2⟩ := digitChar_plain e he
          rw [← htl.1]; exact ⟨h1, h2⟩
      simp [splitRadix, hc.1, hc.2]
  simp only [List.map_cons, List.cons_append] at htake
  simp [parseInt, List.dropWhile, hw, hsign, hradix, htake]

/-- The same for a text that starts with a minus sign. -/
theorem parseInt_neg_digits (ds : List Nat) (h : ∀ d ∈ ds, d < 10) (hne : ds ≠ [])
    (rest : List Char) (hrest : takeDigits 10 rest = [])
    (hx : rest.head? ≠ some 'x' ∧ rest.head? ≠ some 'X') :
    parseInt (String.mk ('-' :: (ds.map Nat.digitChar ++ rest)))
      = some (-((digitsValue 10 ds : Nat) : Int)) := by
  obtain ⟨d, tl, rfl⟩ := List.exists_cons_of_ne_nil hne
  have hd : d < 10 := h d (List.mem_cons_self _ _)
  obtain ⟨-, -, -, -, -⟩ := digitChar_plain d hd
  have htake := takeDigits_map_digitChar (d :: tl) h rest hrest
  have hw : isStrWhiteSpace '-' = false := by decide
  have hsign : splitSign ('-' :: Nat.digitChar d :: (tl.map Nat.digitChar ++ rest))
      = (-1, Nat.digitChar d :: (tl.map Nat.digitChar ++ rest)) := by
    simp [splitSign]
  have hradix : splitRadix (Nat.digitChar d :: (tl.map Nat.digitChar ++ rest))
      = (10, Nat.digitChar d :: (tl.map Nat.digitChar ++ rest)) := by
    cases htl : tl.map Nat.digitChar ++ rest with
    | nil => simp [splitRadix]
    | cons c cs =>
      have hc : c ≠ 'x' ∧ c ≠ 'X' := by
        cases tl with
        | nil =>
          simp at htl
          subst htl
          simpa using hx
        | cons e tl2 =>
          simp at htl
          have he : e < 10 := h e (by simp)
          obtain ⟨-, -, -, h1, h2⟩ := digitChar_plain e he
          rw [← htl.1]; exact ⟨h1, h2⟩
      simp [splitRadix, hc.1, hc.2]
  simp only [List.map_cons, List.cons_append] at htake
  simp [parseInt, List.dropWhile, hw, hsign, hradix, htake]

theorem decimalDigits_lt (n : Nat) : ∀ d ∈ decimalDigits n, d < 10 := by
  intro d hd
  unfold decimalDigits at hd
  split at hd
  · simp at hd; omega
  · exact Nat.digits_lt_base (by norm_num) (List.mem_reverse.mp hd)

theorem decimalDigits_ne_nil (n : Nat) : decimalDigits n ≠ [] := by
  unfold decimalDigits
  split
  · simp
  · rename_i h
    simpa using Nat.digits_ne_nil_iff_ne_zero.mpr h

theorem digitsValue_reverse (l : List Nat) : digitsValue 10 l.reverse = Nat.ofDigits 10 l := by
  induction l with
  | nil => rfl
  | cons d t ih =>
    have : digitsValue 10 (t.reverse ++ [d]) = digitsValue 10 t.reverse * 10 + d := by
      simp [digitsValue, List.foldl_append]
    rw [List.reverse_cons, this, ih, Nat.ofDigits_cons]
    ring

theorem digitsValue_decimalDigits (n : Nat) : digitsValue 10 (decimalDigits n) = n := by
  unfold decimalDigits
  split
  · subst_vars; rfl
  · rw [digitsValue_reverse, Nat.ofDigits_digits]

theorem toDigitsCore_eq (fuel : Nat) : ∀ (n : Nat) (ds : List Char), n < fuel → 0 < n →
    Nat.toDigitsCore 10 fuel n ds = (Nat.digits 10 n).reverse.map Nat.digitChar ++ ds := by
  induction fuel with
  | zero => intro n ds h; omega
  | succ fuel ih =>
    intro n ds h hn
    rw [Nat.toDigitsCore]
    have hdig : Nat.digits 10 n = (n % 10) :: Nat.digits 10 (n / 10) :=
      Nat.digits_def' (by norm_num) hn
    by_cases hlt : n / 10 = 0
    · simp [hlt, hdig]
    · have h1 : n / 10 < fuel := by omega
      have h2 : 0 < n / 10 := Nat.pos_of_ne_zero hlt
      simp [hlt, ih (n / 10) _ h1 h2, hdig]

/-- The numeral Lean prints for a natural number is its decimal digits. -/
theorem repr_eq_decimalDigits (n : Nat) :
    Nat.repr n = String.mk ((decimalDigits n).map Nat.digitChar) := by
  unfold Nat.repr Nat.toDigits decimalDigits
  by_cases h : n = 0
  · subst h; rfl
  · rw [toDigitsCore_eq (n + 1) n [] (by omega) (Nat.pos_of_ne_zero h)]
    simp [h, List.asString]

/-- Reading back the numeral of an integer gives the integer. -/
theorem parseInt_intToString (n : Int) : parseInt (intToString n) = some n := by
  cases n with
  | ofNat m =>
    have h := parseInt_digits (decimalDigits m) (decimalDigits_lt m) (decimalDigits_ne_nil m) []
      rfl (by simp)
    rw [List.append_nil, ← repr_eq_decimalDigits, digitsValue_decimalDigits] at h
    exact h
  | negSucc m =>
    have h := parseInt_neg_digits (decimalDigits (m + 1)) (decimalDigits_lt _)
      (decimalDigits_ne_nil _) [] rfl (by simp)
    rw [List.append_nil, digitsValue_decimalDigits] at h
    have e : intToString (Int.negSucc m)
        = String.mk ('-' :: (decimalDigits (m + 1)).map Nat.digitChar) := by
      show "-" ++ Nat.repr (m + 1) = _
      rw [repr_eq_decimalDigits]
      rfl
    rw [e, h]
    rfl

theorem intToString_injective (a b : Int) (h : intToString a = intToString b) : a = b := by
  have ha := parseInt_intToString a
  rw [h, parseInt_intToString b] at ha
  exact (Option.some.inj ha).symm

/-- The numeral of an integer is never the option text "all". -/
theorem intToString_ne_all (n : Int) : intToString n ≠ "all" := by
  intro h
  have h1 := parseInt_intToString n
  rw [h] at h1
  have h2 : parseInt "all" = none := by decide
  rw [h2] at h1
  exact Option.noConfusion h1

theorem digitsValue_snoc (l : List Nat) (d : Nat) :
    digitsValue 10 (l ++ [d]) = digitsValue 10 l * 10 + d := by
  simp [digitsValue, List.foldl_append]

theorem digitsValue_append (a b : List Nat) :
    digitsValue 10 (a ++ b) = digitsValue 10 a * 10 ^ b.length + digitsValue 10 b := by
  induction b using List.reverseRecOn with
  | nil => simp [digitsValue]
  | append_singleton b d ih =>
    rw [← List.append_assoc, digitsValue_snoc, digitsValue_snoc, ih, List.length_append,
      List.length_singleton, pow_succ]
    ring

theorem digitsValue_lt (l : List Nat) (h : ∀ d ∈ l, d < 10) :
    digitsValue 10 l < 10 ^ l.length := by
  induction l using List.reverseRecOn with
  | nil => simp [digitsValue]
  | append_singleton l d ih =>
    have h1 := ih fun x hx => h x (List.mem_append_left _ hx)
    have h2 : d < 10 := h d (by simp)
    rw [digitsValue_snoc, List.length_append, List.length_singleton, pow_succ]
    omega

theorem digitsValue_replicate_zero (j : Nat) : digitsValue 10 (List.replicate j 0) = 0 := by
  induction j with
  | zero => rfl
  | succ j ih =>
    rw [List.replicate_succ, ← List.singleton_append, digitsValue_append, ih]
    simp [digitsValue]

/-- The cross-multiplied comparison is the comparison of the exact value. -/
theorem JSNumber.ltInt_iff (x : JSNumber) (m : Int) : x.ltInt m = true ↔ x.toRat < (m : ℚ) := by
  unfold JSNumber.ltInt JSNumber.toRat
  by_cases h : 0 ≤ x.scale
  · obtain ⟨k, hk⟩ := Int.eq_ofNat_of_zero_le h
    rw [if_pos h, hk, Int.toNat_ofNat, decide_eq_true_eq, zpow_natCast]
    constructor
    · intro hlt
      have := (Int.cast_lt (R := ℚ)).mpr hlt
      push_cast at this
      exact this
    · intro hlt
      apply (Int.cast_lt (R := ℚ)).mp
      push_cast
      exact hlt
  · have h0 : 0 ≤ -x.scale := by omega
    obtain ⟨k, hk⟩ := Int.eq_ofNat_of_zero_le h0
    have hs : x.scale = -(k : Int) := by omega
    have hpos : (0 : ℚ) < 10 ^ k := by positivity
    rw [if_neg h, hk, Int.toNat_ofNat, decide_eq_true_eq, hs, zpow_neg, zpow_natCast,
      ← div_eq_mul_inv, div_lt_iff₀ hpos]
    constructor
    · intro hlt
      have := (Int.cast_lt (R := ℚ)).mpr hlt
      push_cast at this
      exact this
    · intro hlt
      apply (Int.cast_lt (R := ℚ)).mp
      push_cast
      exact hlt

theorem Direction.text_ne_all (d : Direction) : d.text ≠ "all" := by
  cases d <;> decide

/-- The test `filterSignalList` applies to one signal, under controls that
stand for the criteria, is the predicate of the specification. -/
theorem filterSignalList_keeps_iff (app : SignalBotApp) (c : FilterCriteria) (s : Signal) :
    s ∈ filterSignalList (setControls c app) [s] ↔ Satisfies c s := by
  obtain ⟨m, tf, dir⟩ := c
  have hlt : s.confidence.lt (some m) = true ↔ ¬ ((m : ℚ) ≤ s.confidence.toRat) := by
    rw [not_le]; exact JSNumber.ltInt_iff _ _
  simp only [filterSignalList, setControls, parseInt_intToString, Satisfies, List.mem_filter,
    List.mem_singleton, true_and]
  by_cases hc : (m : ℚ) ≤ s.confidence.toRat
  · have hl : s.confidence.lt (some m) = false := by
      cases hv : s.confidence.lt (some m) with
      | false => rfl
      | true => exact absurd hc (hlt.mp hv)
    cases tf with
    | none =>
      cases dir with
      | none => simp [hl, hc]
      | some d =>
        have := Direction.text_ne_all d
        by_cases hd : s.direction = d.text <;> simp [hl, hc, this, hd, eq_comm]
    | some t =>
      have ht := intToString_ne_all t
      by_cases htf : s.timeframe = t
      · cases dir with
        | none => simp [hl, hc, ht, htf, parseInt_intToString]
        | some d =>
          have := Direction.text_ne_all d
          by_cases hd : s.direction = d.text <;>
            simp [hl, hc, ht, htf, this, hd, eq_comm, parseInt_intToString]
      · have htf2 : ¬ t = s.timeframe := fun e => htf e.symm
        simp [hl, hc, ht, htf, htf2, parseInt_intToString]
  · have hl : s.confidence.lt (some m) = true := hlt.mpr hc
    simp [hl, hc]

theorem parseInt_zero_text : parseInt "0" = some 0 := by decide

theorem digitChar_zero : Nat.digitChar 0 = '0' := rfl

theorem takeDigits_point (l : List Char) : takeDigits 10 ('.' :: l) = [] := by
  have h : digitValue 10 '.' = none := by decide
  simp [takeDigits, h]

/-- What `parseInt` reads back from the text of a positional number. -/
theorem parsedLt_numberToString (x : JSNumber) (hw : x.WellFormed) (hp : x.Positional)
    (m : Int) : parsedLt (parseInt x.numberToString) (some m) = x.ltInt m := by
  obtain ⟨neg, digits, n⟩ := x
  obtain ⟨hlt, hhead, hlast⟩ := hw
  obtain ⟨hneg, hpos⟩ := hp
  simp only at hlt hhead hlast hneg hpos
  subst hneg
  by_cases hd : digits = []
  · subst hd
    have : (JSNumber.mk false [] n).numberToString = "0" := by simp [JSNumber.numberToString]
    rw [this, parseInt_zero_text]
    simp only [parsedLt, JSNumber.ltInt, JSNumber.mantissa, JSNumber.scale, digitsValue]
    by_cases h0 : (0:Int) ≤ n - ((([] : List Nat).length : Nat) : Int)
    · simp [h0]
    · simp only [h0, if_false]
      simp
  · obtain ⟨hn6, hn21⟩ := hpos.resolve_left hd
    have hk : 0 < digits.length := List.length_pos.mpr hd
    by_cases hA : (digits.length : Int) ≤ n
    · -- integer: the digits followed by zeros
      obtain ⟨j, hj⟩ := Int.eq_ofNat_of_zero_le (sub_nonneg.mpr hA)
      have hstr : (JSNumber.mk false digits n).numberToString
          = String.mk ((digits ++ List.replicate j 0).map Nat.digitChar ++ []) := by
        simp [JSNumber.numberToString, hd, hA, hn21, hj, List.map_replicate, digitChar_zero]
      have hall : ∀ d ∈ digits ++ List.replicate j 0, d < 10 := by
        intro d hdm
        rcases List.mem_append.mp hdm with h1 | h1
        · exact hlt d h1
        · rw [(List.mem_replicate.mp h1).2]; norm_num
      rw [hstr, parseInt_digits _ hall (by simp [hd]) [] rfl (by simp), digitsValue_append,
        digitsValue_replicate_zero, List.length_replicate]
      simp only [parsedLt, JSNumber.ltInt, JSNumber.mantissa, JSNumber.scale, hj]
      simp
    · push_neg at hA
      by_cases hB : 0 < n
      · -- a fraction above one: the point falls inside the digits
        obtain ⟨i, hi⟩ := Int.eq_ofNat_of_zero_le (le_of_lt hB)
        subst hi
        have hik : i < digits.length := by exact_mod_cast hA
        have hi0 : 0 < i := by exact_mod_cast hB
        have hstr : (JSNumber.mk false digits (i : Int)).numberToString
            = String.mk ((digits.take i).map Nat.digitChar
                ++ '.' :: (digits.drop i).map Nat.digitChar) := by
          have h1 : ¬ ((digits.length : Int) ≤ (i : Int)) := by omega
          simp [JSNumber.numberToString, hd, h1, hB, hn21, List.map_take, List.map_drop]
        have hall : ∀ d ∈ digits.take i, d < 10 := fun d hdm => hlt d (List.mem_of_mem_take hdm)
        have hne : digits.take i ≠ [] := by
          intro h
          have := congrArg List.length h
          rw [List.length_take, List.length_nil] at this
          omega
        have hsplit := digitsValue_append (digits.take i) (digits.drop i)
        rw [List.take_append_drop] at hsplit
        have hB2 := digitsValue_lt (digits.drop i) fun d hdm => hlt d (List.mem_of_mem_drop hdm)
        have hlen : (digits.drop i).length = digits.length - i := by simp
        rw [hlen] at hsplit hB2
        rw [hstr, parseInt_digits _ hall hne _ (takeDigits_point _) (by simp)]
        simp only [parsedLt, JSNumber.ltInt, JSNumber.mantissa, JSNumber.scale]
        have hs : ¬ ((0 : Int) ≤ (i : Int) - (digits.length : Int)) := by omega
        have hs2 : (-((i : Int) - (digits.length : Int))).toNat = digits.length - i := by omega
        rw [if_neg hs, hs2]
        have hP : (0 : Int) < 10 ^ (digits.length - i) := by positivity
        have hV : ((digitsValue 10 digits : Nat) : Int)
            = (digitsValue 10 (digits.take i) : Nat) * 10 ^ (digits.length - i)
              + (digitsValue 10 (digits.drop i) : Nat) := by
          exact_mod_cast hsplit
        have hB3 : ((digitsValue 10 (digits.drop i) : Nat) : Int) < 10 ^ (digits.length - i) := by
          exact_mod_cast hB2
        have hB4 : (0 : Int) ≤ (digitsValue 10 (digits.drop i) : Nat) := Int.natCast_nonneg _
        simp only [Bool.false_eq_true, if_false, hV]
        rw [decide_eq_decide]
        constructor
        · intro h; nlinarith
        · intro h; by_contra hc; push_neg at hc; nlinarith
      · -- below one: the text starts with a zero before the point
        push_neg at hB
        have hstr : (JSNumber.mk false digits n).numberToString
            = String.mk (([0] : List Nat).map Nat.digitChar
                ++ '.' :: (List.replicate (-n).toNat '0' ++ digits.map Nat.digitChar)) := by
          have h1 : ¬ ((digits.length : Int) ≤ n) := by omega
          have h2 : ¬ (0 < n) := by omega
          simp [JSNumber.numberToString, hd, h1, h2, hn6, hB, digitChar_zero]
        rw [hstr, parseInt_digits [0] (by simp) (by simp) _ (takeDigits_point _)
          (by simp)]
        simp only [parsedLt, JSNumber.ltInt, JSNumber.mantissa, JSNumber.scale]
        have hs : ¬ ((0 : Int) ≤ n - (digits.length : Int)) := by omega
        obtain ⟨j, hj⟩ := Int.eq_ofNat_of_zero_le (neg_nonneg.mpr hB)
        have hs2 : (-(n - (digits.length : Int))).toNat = digits.length + j := by omega
        rw [if_neg hs, hs2]
        have hV := digitsValue_lt digits hlt
        have hV2 : ((digitsValue 10 digits : Nat) : Int) < 10 ^ digits.length := by
          exact_mod_cast hV
        have hV3 : (0 : Int) ≤ (digitsValue 10 digits : Nat) := Int.natCast_nonneg _
        have hP : (0 : Int) < 10 ^ digits.length := by positivity
        have hQ : (1 : Int) ≤ 10 ^ j := by
          have : (0 : Int) < 10 ^ j := by positivity
          omega
        have hzero : ((digitsValue 10 [0] : Nat) : Int) = 0 := rfl
        simp only [Bool.false_eq_true, if_false, hzero, pow_add]
        rw [decide_eq_decide]
        constructor
        · intro h
          have h1 : (1 : Int) ≤ m := by omega
          have h2 : (10 : Int) ^ digits.length ≤ m * (10 ^ digits.length * 10 ^ j) := by
            nlinarith [mul_le_mul h1 hQ (by norm_num) (by omega : (0 : Int) ≤ m)]
          omega
        · intro h
          by_contra hc
          push_neg at hc
          have : m * (10 ^ digits.length * 10 ^ j) ≤ 0 := by
            apply mul_nonpos_of_nonpos_of_nonneg hc
            positivity
          omega

/-- On a signal whose confidence prints without an exponent, with the
timeframe and the integers of the criteria in the range JavaScript holds
exactly, the card test of `filterSignals` and the test of `filterSignalList`
agree. -/
theorem shouldShow_iff_filterSignalList (app : SignalBotApp) (c : FilterCriteria) (s : Signal)
    (hw : s.confidence.WellFormed) (hp : s.confidence.Positional)
    (_hs : SafeInteger s.timeframe) (_hm : SafeInteger c.minConfidence)
    (_ht : ∀ t, c.timeframe = some t → SafeInteger t) :
    shouldShow (setControls c app) (createSignalElement s) = true
      ↔ s ∈ filterSignalList (setControls c app) [s] := by
  obtain ⟨m, tf, dir⟩ := c
  have hconf := parsedLt_numberToString s.confidence hw hp m
  simp only [shouldShow, filterSignalList, setControls, createSignalElement,
    parseInt_intToString, hconf, JSNumber.lt, List.mem_filter, List.mem_singleton, true_and]
  have htf : ∀ t : Int, (intToString s.timeframe ≠ intToString t) ↔ (some s.timeframe ≠ some t) := by
    intro t
    constructor
    · intro h e; exact h (by rw [Option.some.inj e])
    · intro h e; exact h (by rw [intToString_injective _ _ e])
  cases hl : s.confidence.ltInt m <;> cases tf <;> cases dir <;>
    simp [hl, intToString_ne_all, Direction.text_ne_all, htf, parseInt_intToString]
  exact and_comm

/-! ## Facts about the list of cards -/

theorem listCards_map_card (l : List Signal) :
    listCards (l.map fun signal => Node.card (createSignalElement signal))
      = l.map createSignalElement := by
  induction l with
  | nil => rfl
  | cons x rest ih => simp [listCards, ih]

theorem mem_filterSignalList_iff (app : SignalBotApp) (signals : List Signal) (s : Signal) :
    s ∈ filterSignalList app signals ↔ s ∈ signals ∧ s ∈ filterSignalList app [s] := by
  simp [filterSignalList, List.mem_filter]

theorem filterSignalList_displaySignals (signals : Option (List Signal)) (app : SignalBotApp)
    (l : List Signal) :
    filterSignalList (displaySignals signals app) l = filterSignalList app l := by
  cases signals with
  | none => rfl
  | some ss => cases ss <;> rfl

theorem storeSignals_displaySignals (signals : List Signal) (app : SignalBotApp) :
    storeSignals (displaySignals (some signals) app) = filterSignalList app signals := by
  cases signals with
  | nil => rfl
  | cons x rest =>
    unfold storeSignals displaySignals
    simp only [listCards_map_card, List.map_map]
    have : ((fun c : SignalCard => c.content) ∘ createSignalElement) = id := by
      funext y; rfl
    rw [this, List.map_id]

/-- After `displaySignals` every card is shown: the shown signals are the
snapshot filtered by `filterSignalList`. -/
theorem visibleSignals_displaySignals (signals : List Signal) (app : SignalBotApp) :
    visibleSignals (displaySignals (some signals) app) = filterSignalList app signals := by
  rw [← storeSignals_displaySignals]
  unfold visibleSignals storeSignals
  congr 1
  rw [List.filter_eq_self]
  intro c hc
  cases signals with
  | nil => simp [displaySignals, listCards] at hc
  | cons x rest =>
    simp only [displaySignals, listCards_map_card, List.mem_map] at hc
    obtain ⟨y, -, rfl⟩ := hc
    simp [createSignalElement]

theorem filterSignalList_eq_self (app : SignalBotApp) (l : List Signal)
    (h : ∀ s ∈ l, s ∈ filterSignalList app [s]) : filterSignalList app l = l := by
  unfold filterSignalList at h ⊢
  rw [List.filter_eq_self]
  intro s hs
  have := h s hs
  simp only [List.mem_filter, List.mem_singleton, true_and] at this
  exact this

theorem socketsCreated_foldl (ts : List Timeout) (app : SignalBotApp) :
    (ts.foldl (fun a t => runCallback t.callback a) app).socketsCreated
      = app.socketsCreated + ts.length := by
  induction ts generalizing app with
  | nil => rfl
  | cons t rest ih =>
    rw [List.foldl_cons, ih]
    cases t with
    | mk cb d =>
      cases cb
      simp [runCallback, connectWebSocket]
      omega

/-! ## Facts about the scanner and the markup of a card -/

theorem scanMarkup_nil (st : ScanState) : scanMarkup st [] = 0 := by
  with_unfolding_all rfl

theorem scanMarkup_cons (st : ScanState) (c : Char) (cs : List Char) :
    scanMarkup st (c :: cs) = (scanStep st c).2 + scanMarkup (scanStep st c).1 cs := by
  with_unfolding_all rfl

theorem scanMarkup_append (st : ScanState) (a b : List Char) :
    scanMarkup st (a ++ b) = scanMarkup st a + scanMarkup (scanEnd st a) b := by
  induction a generalizing st with
  | nil => simp [scanMarkup_nil, scanEnd]
  | cons c cs ih =>
    rw [List.cons_append, scanMarkup_cons, scanMarkup_cons, ih, scanEnd]
    omega

/-- A stretch of markup that takes the scanner from one state to another
without completing a `signal-card` tag can be passed over. -/
theorem scanMarkup_pass (st st' : ScanState) (lit rest : List Char)
    (h : (decide (scanEnd st lit = st') && decide (scanMarkup st lit = 0)) = true) :
    scanMarkup st (lit ++ rest) = scanMarkup st' rest := by
  simp only [Bool.and_eq_true, decide_eq_true_eq] at h
  rw [scanMarkup_append, h.1, h.2, Nat.zero_add]

theorem scan_text_facts (t : List Char) (h : '<' ∉ t) :
    scanEnd ScanState.data t = ScanState.data ∧ scanMarkup ScanState.data t = 0 := by
  induction t with
  | nil => exact ⟨rfl, scanMarkup_nil _⟩
  | cons c cs ih =>
    have hc : c ≠ '<' := fun e => h (by simp [e])
    have hcs : '<' ∉ cs := fun e => h (by simp [e])
    obtain ⟨i1, i2⟩ := ih hcs
    have hstep : scanStep ScanState.data c = (ScanState.data, 0) := by
      simp [scanStep, hc]
    constructor
    · rw [scanEnd, hstep]; exact i1
    · rw [scanMarkup_cons, hstep]; simpa using i2

/-- Text without `<` read as content makes no element. -/
theorem scanMarkup_text (t rest : List Char) (h : '<' ∉ t) :
    scanMarkup ScanState.data (t ++ rest) = scanMarkup ScanState.data rest := by
  obtain ⟨h1, h2⟩ := scan_text_facts t h
  rw [scanMarkup_append, h1, h2, Nat.zero_add]

theorem finishAttribute_other (t : TagScan) (n v : List Char) (hn : n ≠ "class".data) :
    finishAttribute t n v = t := by
  simp [finishAttribute, hn]

theorem scanMarkup_value_irrelevant (t : TagScan) (n : List Char) (q : Char)
    (hn : n ≠ "class".data) (rest : List Char) : ∀ v v' : List Char,
    scanMarkup (ScanState.attributeValue t n (some q) v) rest
      = scanMarkup (ScanState.attributeValue t n (some q) v') rest := by
  induction rest with
  | nil => intro v v'; rw [scanMarkup_nil, scanMarkup_nil]
  | cons c cs ih =>
    intro v v'
    rw [scanMarkup_cons, scanMarkup_cons]
    by_cases hc : c = q
    · simp [scanStep, hc, finishAttribute_other t n _ hn]
    · simp only [scanStep, hc, if_false]
      rw [ih (v ++ [c]) (v' ++ [c])]

/-- Text without the quote, read inside the quoted value of an attribute
other than `class`, changes nothing. -/
theorem scanMarkup_attributeText (t : TagScan) (n : List Char) (q : Char) (v w rest : List Char)
    (hn : n ≠ "class".data) (hq : q ∉ w) :
    scanMarkup (ScanState.attributeValue t n (some q) v) (w ++ rest)
      = scanMarkup (ScanState.attributeValue t n (some q) v) rest := by
  induction w generalizing v with
  | nil => rfl
  | cons c cs ih =>
    have hc : c ≠ q := fun e => hq (by simp [e])
    have hcs : q ∉ cs := fun e => hq (by simp [e])
    rw [List.cons_append, scanMarkup_cons]
    simp only [scanStep, hc, if_false, Nat.zero_add]
    rw [scanMarkup_value_irrelevant t n q hn _ (v ++ [c]) v]
    exact ih v hcs

theorem digitChar_ne (n : Nat) : Nat.digitChar n ≠ '<' ∧ Nat.digitChar n ≠ '"' := by
  by_cases h : n < 16
  · interval_cases n <;> exact ⟨by decide, by decide⟩
  · have e : Nat.digitChar n = '*' := by
      unfold Nat.digitChar
      repeat rw [if_neg (by omega)]
    rw [e]
    exact ⟨by decide, by decide⟩

theorem repr_chars (n : Nat) : ∀ c ∈ (Nat.repr n).data, c ≠ '<' ∧ c ≠ '"' := by
  intro c hc
  rw [repr_eq_decimalDigits] at hc
  simp only [List.mem_map] at hc
  obtain ⟨d, -, rfl⟩ := hc
  exact digitChar_ne d

theorem intToString_chars (n : Int) : ∀ c ∈ (intToString n).data, c ≠ '<' ∧ c ≠ '"' := by
  intro c hc
  cases n with
  | ofNat m => exact repr_chars m c hc
  | negSucc m =>
    have e : (intToString (Int.negSucc m)).data = '-' :: (Nat.repr (m + 1)).data := rfl
    rw [e, List.mem_cons] at hc
    rcases hc with rfl | hc
    · constructor <;> decide
    · exact repr_chars _ c hc

theorem numberToString_chars (x : JSNumber) : '<' ∉ x.numberToString.data := by
  have hds : '<' ∉ x.digits.map Nat.digitChar := by
    intro hc
    simp only [List.mem_map] at hc
    obtain ⟨d, -, hd⟩ := hc
    exact (digitChar_ne d).1 hd
  have htake : ∀ k, '<' ∉ (x.digits.map Nat.digitChar).take k :=
    fun k hc => hds (List.mem_of_mem_take hc)
  have hdrop : ∀ k, '<' ∉ (x.digits.map Nat.digitChar).drop k :=
    fun k hc => hds (List.mem_of_mem_drop hc)
  have hrepr : ∀ n, '<' ∉ (Nat.repr n).data := fun n hc => (repr_chars n _ hc).1 rfl
  have hzero : ('<' : Char) ≠ '0' := by decide
  have hdot : ('<' : Char) ≠ '.' := by decide
  have he : ('<' : Char) ≠ 'e' := by decide
  have hplus : ('<' : Char) ≠ '+' := by decide
  have hminus : ('<' : Char) ≠ '-' := by decide
  intro hmem
  unfold JSNumber.numberToString at hmem
  dsimp only at hmem
  split_ifs at hmem <;>
    simp only [List.mem_cons, List.mem_append, List.mem_replicate, List.mem_singleton,
      hds, htake, hdrop, hrepr, hzero, hdot, he, hplus, hminus, false_or, or_false,
      and_false, false_and, or_self, List.not_mem_nil] at hmem

theorem not_mem_of_noMarkup (t : String) (h : noMarkup t = true) : '<' ∉ t.data := by
  simpa [noMarkup] using h

theorem scanMarkup_pass2 (st st' : ScanState) (a b rest : List Char)
    (h : (decide (scanEnd st (a ++ b) = st') && decide (scanMarkup st (a ++ b) = 0)) = true) :
    scanMarkup st (a ++ (b ++ rest)) = scanMarkup st' rest := by
  rw [← List.append_assoc]
  exact scanMarkup_pass st st' _ rest h

theorem scanMarkup_pass3 (st st' : ScanState) (a b c rest : List Char)
    (h : (decide (scanEnd st (a ++ b ++ c) = st')
      && decide (scanMarkup st (a ++ b ++ c) = 0)) = true) :
    scanMarkup st (a ++ (b ++ (c ++ rest))) = scanMarkup st' rest := by
  rw [← List.append_assoc, ← List.append_assoc]
  exact scanMarkup_pass st st' _ rest h

/-- An `info-item` of the template whose value holds no `<` makes no
`.signal-card` element. -/
theorem scanMarkup_infoItem (icon label value : String) (rest : List Char)
    (h : (icon, label) ∈ [("fa-comment", "Причина:"), ("fa-dollar-sign", "Ціна входу:"),
      ("fa-trophy", "Тейк1-профіт:"), ("fa-shield-alt", "Стоп-лосс:")])
    (hv : '<' ∉ value.data) :
    scanMarkup ScanState.data ((infoItem icon label value).data ++ rest)
      = scanMarkup ScanState.data rest := by
  simp only [List.mem_cons, Prod.mk.injEq, List.mem_singleton, List.not_mem_nil, or_false] at h
  unfold infoItem
  simp only [String.data_append, List.append_assoc]
  rcases h with ⟨rfl, rfl⟩ | ⟨rfl, rfl⟩ | ⟨rfl, rfl⟩ | ⟨rfl, rfl⟩
  all_goals
    refine (scanMarkup_pass3 _ ScanState.data _ _ _ _ (by decide!)).trans ?_
    refine (scanMarkup_pass2 _ ScanState.data _ _ _ (by decide!)).trans ?_
    refine (scanMarkup_text _ _ hv).trans ?_
    exact scanMarkup_pass _ ScanState.data _ _ (by decide!)

theorem scanMarkup_reasonItem (signal : Signal) (rest : List Char)
    (h : signal.reason.all noMarkup = true) :
    scanMarkup ScanState.data ((reasonItem signal).data ++ rest)
      = scanMarkup ScanState.data rest := by
  unfold reasonItem
  cases hr : signal.reason with
  | none => rfl
  | some r =>
    rw [hr] at h
    simp only
    split_ifs
    · exact scanMarkup_infoItem _ _ _ _ (by simp) (not_mem_of_noMarkup r (by simpa using h))
    · rfl

theorem scanMarkup_priceItem (icon label : String) (price : Option JSNumber) (rest : List Char)
    (h : (icon, label) ∈ [("fa-comment", "Причина:"), ("fa-dollar-sign", "Ціна входу:"),
      ("fa-trophy", "Тейк1-профіт:"), ("fa-shield-alt", "Стоп-лосс:")]) :
    scanMarkup ScanState.data ((priceItem icon label price).data ++ rest)
      = scanMarkup ScanState.data rest := by
  unfold priceItem
  cases price with
  | none => rfl
  | some v =>
    simp only
    split_ifs
    · exact scanMarkup_infoItem _ _ _ _ h (numberToString_chars v)
    · rfl

theorem confidenceColor_chars (p : Int) : '"' ∉ (confidenceColor p).data := by
  unfold confidenceColor
  split_ifs <;> decide

theorem orElse_chars (a : Option String) (b : String) (ha : a.all noMarkup = true)
    (hb : noMarkup b = true) : '<' ∉ (orElse a b).data := by
  unfold orElse
  cases a with
  | none => exact not_mem_of_noMarkup b hb
  | some t =>
    simp only
    split_ifs
    · exact not_mem_of_noMarkup t (by simpa using ha)
    · exact not_mem_of_noMarkup b hb

/-- The markup of a signal whose direction is "up" or "down" and whose text
fields hold no `<` makes no `.signal-card` element. -/
theorem scanMarkup_signalMarkup (s : Signal) (rest : List Char)
    (hd : s.direction = "up" ∨ s.direction = "down")
    (h1 : noMarkup s.asset = true) (h2 : s.asset_name.all noMarkup = true)
    (h3 : noMarkup s.timeframe_text = true) (h4 : s.reason.all noMarkup = true)
    (h5 : noMarkup s.human_time = true) :
    scanMarkup ScanState.data ((signalMarkup s).data ++ rest)
      = scanMarkup ScanState.data rest := by
  unfold signalMarkup
  simp only [String.data_append, List.append_assoc]
  have hitems : ∀ p : String × String,
      p ∈ [("fa-dollar-sign", "Ціна входу:"), ("fa-trophy", "Тейк1-профіт:"),
        ("fa-shield-alt", "Стоп-лосс:")] →
      p ∈ [("fa-comment", "Причина:"), ("fa-dollar-sign", "Ціна входу:"),
        ("fa-trophy", "Тейк1-профіт:"), ("fa-shield-alt", "Стоп-лосс:")] := by
    intro p hp
    exact List.mem_cons_of_mem _ hp
  rcases hd with hdir | hdir
  all_goals
    rw [hdir]
    refine (scanMarkup_pass _ ScanState.data _ _ (by decide!)).trans ?_
    refine (scanMarkup_text _ _ (orElse_chars _ _ h2 h1)).trans ?_
    refine (scanMarkup_pass _ ScanState.data _ _ (by decide!)).trans ?_
    refine (scanMarkup_text _ _ (not_mem_of_noMarkup _ h3)).trans ?_
    refine (scanMarkup_pass3 _ ScanState.data _ _ _ _ (by decide!)).trans ?_
    refine (scanMarkup_pass3 _ ScanState.data _ _ _ _ (by decide!)).trans ?_
    refine (scanMarkup_pass3 _ ScanState.data _ _ _ _ (by decide!)).trans ?_
    refine (scanMarkup_pass _
      (ScanState.attributeValue { closing := false, classSeen := false, hit := false }
        "style".data (some '"') "color: ".data) _ _ (by decide!)).trans ?_
    refine (scanMarkup_attributeText _ _ _ _ _ _ (by decide)
      (confidenceColor_chars _)).trans ?_
    refine (scanMarkup_pass _ ScanState.data _ _ (by decide!)).trans ?_
    refine (scanMarkup_text _ _ (numberToString_chars _)).trans ?_
    refine (scanMarkup_pass3 _
      (ScanState.attributeValue { closing := false, classSeen := true, hit := false }
        "style".data (some '"') "width: ".data) _ _ _ _ (by decide!)).trans ?_
    refine (scanMarkup_attributeText _ _ _ _ _ _ (by decide)
      (fun hc => (intToString_chars _ _ hc).2 rfl)).trans ?_
    refine (scanMarkup_pass3 _ ScanState.data _ _ _ _ (by decide!)).trans ?_
    refine (scanMarkup_reasonItem _ _ h4).trans ?_
    refine (scanMarkup_pass _ ScanState.data _ _ (by decide!)).trans ?_
    refine (scanMarkup_priceItem _ _ _ _ (hitems _ (by simp))).trans ?_
    refine (scanMarkup_pass _ ScanState.data _ _ (by decide!)).trans ?_
    refine (scanMarkup_priceItem _ _ _ _ (hitems _ (by simp))).trans ?_
    refine (scanMarkup_pass _ ScanState.data _ _ (by decide!)).trans ?_
    refine (scanMarkup_priceItem _ _ _ _ (hitems _ (by simp))).trans ?_
    refine (scanMarkup_pass2 _ ScanState.data _ _ _ (by decide!)).trans ?_
    refine (scanMarkup_text _ _ (not_mem_of_noMarkup _ h5)).trans ?_
    exact scanMarkup_pass _ ScanState.data _ _ (by decide!)

/-- The card of a signal whose direction is "up" or "down" and whose text
fields hold no `<` has no `.signal-card` element inside it. -/
theorem matchingElements_signalMarkup (s : Signal)
    (hd : s.direction = "up" ∨ s.direction = "down")
    (h1 : noMarkup s.asset = true) (h2 : s.asset_name.all noMarkup = true)
    (h3 : noMarkup s.timeframe_text = true) (h4 : s.reason.all noMarkup = true)
    (h5 : noMarkup s.human_time = true) :
    matchingElements (signalMarkup s) = 0 := by
  have h := scanMarkup_signalMarkup s [] hd h1 h2 h3 h4 h5
  rw [List.append_nil, scanMarkup_nil] at h
  exact h

/-! ## `addSignal` on plain signals -/

theorem signalCards_of_noInner (l : List Node) (h : NoInner l) :
    signalCards l = (listCards l).map CardElement.card := by
  induction l with
  | nil => rfl
  | cons x rest ih =>
    cases x with
    | text => simpa [signalCards, listCards] using ih h
    | noSignals => simpa [signalCards, listCards] using ih h
    | card c =>
      have hc : c.inner = 0 := h c (by simp [listCards])
      have hr : NoInner rest := fun d hd => h d (by simp [listCards, hd])
      simp [signalCards, listCards, hc, ih hr]

theorem removeLastCard_of_noInner (l : List Node) (h : NoInner l) :
    listCards (removeLastCard l) = (listCards l).dropLast ∧ NoInner (removeLastCard l) := by
  induction l with
  | nil => exact ⟨rfl, h⟩
  | cons x rest ih =>
    cases x with
    | text => simpa [removeLastCard, listCards, NoInner] using ih h
    | noSignals => simpa [removeLastCard, listCards, NoInner] using ih h
    | card c =>
      have hc : c.inner = 0 := h c (by simp [listCards])
      have hr : NoInner rest := fun d hd => h d (by simp [listCards, hd])
      have hsc := signalCards_of_noInner rest hr
      by_cases hn : listCards rest = []
      · have h1 : signalCards rest = [] := by rw [hsc, hn]; rfl
        simp [removeLastCard, listCards, h1, hc, hn]
        exact hr
      · have h1 : signalCards rest ≠ [] := by
          rw [hsc]; simpa using hn
        obtain ⟨y, ys, hy⟩ := List.exists_cons_of_ne_nil hn
        obtain ⟨ih1, ih2⟩ := ih hr
        refine ⟨?_, ?_⟩
        · simp [removeLastCard, listCards, h1, ih1, hy, List.dropLast]
        · intro d hd
          simp only [removeLastCard, h1, if_false, listCards, List.mem_cons] at hd
          rcases hd with rfl | hd
          · exact hc
          · exact ih2 d hd

theorem updateStats_signalsList (data : StatsData) (app : SignalBotApp) :
    (updateStats data app).elements.signalsList = app.elements.signalsList := by
  unfold updateStats
  cases data.total_signals_generated <;> cases data.success_rate <;> simp <;> split_ifs <;> rfl

theorem createSignalElement_inner (signal : Signal) :
    (createSignalElement signal).inner = matchingElements (signalMarkup signal) := by
  unfold createSignalElement
  rfl

/-- The card of a plain signal has no `.signal-card` element inside it. -/
theorem inner_of_plainSignal (signal : Signal) (h : PlainSignal signal) :
    (createSignalElement signal).inner = 0 := by
  rw [createSignalElement_inner]
  exact matchingElements_signalMarkup signal h.1 h.2.1 h.2.2.1 h.2.2.2.1 h.2.2.2.2.1 h.2.2.2.2.2

/-- The list after `addSignal`. -/
theorem addSignal_signalsList (signal : Signal) (app : SignalBotApp) :
    (addSignal signal app).elements.signalsList
      = if (signalCards (Node.card (createSignalElement signal)
              :: app.elements.signalsList)).length > 20
        then removeLastCard (Node.card (createSignalElement signal) :: app.elements.signalsList)
        else Node.card (createSignalElement signal) :: app.elements.signalsList := by
  unfold addSignal
  rw [updateStats_signalsList]
  generalize createSignalElement signal = card
  cases app.elements.signalsList <;> rfl

/-- On a list without inner elements, `addSignal` of a signal whose card has
none puts the new card in front and keeps the first twenty cards. -/
theorem listCards_addSignal_plain (signal : Signal) (app : SignalBotApp)
    (hs : (createSignalElement signal).inner = 0) (hn : NoInner app.elements.signalsList)
    (hlen : (listCards app.elements.signalsList).length ≤ 20) :
    listCards (addSignal signal app).elements.signalsList
        = (createSignalElement signal :: listCards app.elements.signalsList).take 20 ∧
      NoInner (addSignal signal app).elements.signalsList := by
  have hins : NoInner (Node.card (createSignalElement signal) :: app.elements.signalsList) := by
    intro d hd
    simp only [listCards, List.mem_cons] at hd
    rcases hd with rfl | hd
    · exact hs
    · exact hn d hd
  rw [addSignal_signalsList, signalCards_of_noInner _ hins]
  simp only [List.length_map, listCards, List.length_cons]
  split_ifs with h1
  · obtain ⟨r1, r2⟩ := removeLastCard_of_noInner _ hins
    refine ⟨?_, r2⟩
    rw [r1]
    simp only [listCards]
    have hl : (createSignalElement signal :: listCards app.elements.signalsList).length
        = 20 + 1 := by rw [List.length_cons]; omega
    rw [List.dropLast_eq_take, hl]
  · refine ⟨?_, hins⟩
    simp only [listCards]
    rw [List.take_of_length_le]
    rw [List.length_cons]; omega

theorem listCards_nil_of_signalCards_nil (l : List Node) (h : signalCards l = []) :
    listCards l = [] := by
  induction l with
  | nil => rfl
  | cons x rest ih =>
    cases x with
    | text => simpa [signalCards, listCards] using ih (by simpa [signalCards] using h)
    | noSignals => simpa [signalCards, listCards] using ih (by simpa [signalCards] using h)
    | card c => simp [signalCards] at h

theorem listCards_foldl_addSignal_plain (app : SignalBotApp)
    (h : signalCards app.elements.signalsList = []) (signals : List Signal)
    (hp : ∀ s ∈ signals, PlainSignal s) :
    listCards (signals.foldl (fun a s => addSignal s a) app).elements.signalsList
        = (signals.reverse.take 20).map createSignalElement ∧
      NoInner (signals.foldl (fun a s => addSignal s a) app).elements.signalsList := by
  induction signals using List.reverseRecOn with
  | nil =>
    have h0 := listCards_nil_of_signalCards_nil _ h
    refine ⟨by simpa using h0, ?_⟩
    intro c hc
    simp [h0] at hc
  | append_singleton l s ih =>
    obtain ⟨ih1, ih2⟩ := ih fun x hx => hp x (List.mem_append_left _ hx)
    have hs : (createSignalElement s).inner = 0 := inner_of_plainSignal s (hp s (by simp))
    rw [List.foldl_append, List.foldl_cons, List.foldl_nil]
    obtain ⟨r1, r2⟩ := listCards_addSignal_plain s _ hs ih2 (by rw [ih1]; simp)
    refine ⟨?_, r2⟩
    rw [r1, ih1]
    simp only [List.reverse_append, List.reverse_singleton, List.singleton_append,
      List.map_take, List.map_cons]
    rw [List.take_cons (by norm_num : 0 < 20), List.take_cons (by norm_num : 0 < 20),
      List.take_take]
    simp

/-- From a list with no card, after any sequence of `addSignal` calls with
plain signals the list holds the most recent min(n, 20) signals, newest
first. -/
theorem storeSignals_foldl_addSignal_plain (app : SignalBotApp)
    (h : signalCards app.elements.signalsList = []) (signals : List Signal)
    (hp : ∀ s ∈ signals, PlainSignal s) :
    storeSignals (signals.foldl (fun a s => addSignal s a) app) = signals.reverse.take 20 ∧
    (signalCards (signals.foldl (fun a s => addSignal s a) app).elements.signalsList).length
      = min signals.length 20 := by
  obtain ⟨k1, k2⟩ := listCards_foldl_addSignal_plain app h signals hp
  constructor
  · unfold storeSignals
    rw [k1, List.map_map]
    have : ((fun c : SignalCard => c.content) ∘ createSignalElement) = id := by
      funext x; rfl
    rw [this, List.map_id]
  · rw [signalCards_of_noInner _ k2, k1]
    simp [Nat.min_comm]

/-- The number `addSignal` writes to the total-generated element: the
`.signal-card` elements found after the insertion. -/
theorem addSignal_totalGenerated_eq (signal : Signal) (app : SignalBotApp) :
    (addSignal signal app).elements.totalGenerated
      = intToString ((signalCards (Node.card (createSignalElement signal)
          :: app.elements.signalsList)).length : Nat) := by
  have hpos : ∀ (c : SignalCard) (l : List Node),
      ((signalCards (Node.card c :: l)).length : Int) ≠ 0 := by
    intro c l
    simp only [signalCards, List.length_cons]
    omega
  unfold addSignal
  generalize createSignalElement signal = card
  cases hl : app.elements.signalsList with
  | nil =>
    simp only [updateStats]
    rw [if_pos (hpos card [])]
  | cons first rest =>
    simp only [updateStats]
    rw [if_pos (hpos card (first :: rest))]

/-- On a list of n cards without inner elements, `addSignal` of a plain
signal writes n + 1 to the total-generated element and leaves the
success-rate element; the number written is the number of cards left exactly
when n < 20. -/
theorem addSignal_totalGenerated_plain (signal : Signal) (app : SignalBotApp)
    (hs : PlainSignal signal) (hn : NoInner app.elements.signalsList) :
    (addSignal signal app).elements.totalGenerated
      = intToString ((listCards app.elements.signalsList).length + 1 : Nat) ∧
    (addSignal signal app).elements.successRate = app.elements.successRate ∧
    ((addSignal signal app).elements.totalGenerated
        = intToString ((listCards (addSignal signal app).elements.signalsList).length : Nat)
      ↔ (listCards app.elements.signalsList).length < 20) := by
  have hi : (createSignalElement signal).inner = 0 := inner_of_plainSignal signal hs
  have hins : NoInner (Node.card (createSignalElement signal) :: app.elements.signalsList) := by
    intro d hd
    simp only [listCards, List.mem_cons] at hd
    rcases hd with rfl | hd
    · exact hi
    · exact hn d hd
  have htot : (addSignal signal app).elements.totalGenerated
      = intToString ((listCards app.elements.signalsList).length + 1 : Nat) := by
    rw [addSignal_totalGenerated_eq, signalCards_of_noInner _ hins]
    simp [listCards]
  have hafter : (listCards (addSignal signal app).elements.signalsList).length
      = if (listCards app.elements.signalsList).length + 1 > 20
        then (listCards app.elements.signalsList).length
        else (listCards app.elements.signalsList).length + 1 := by
    rw [addSignal_signalsList, signalCards_of_noInner _ hins]
    simp only [List.length_map, listCards, List.length_cons]
    split_ifs with h1
    · rw [(removeLastCard_of_noInner _ hins).1]; simp [listCards]
    · simp [listCards]
  refine ⟨htot, ?_, ?_⟩
  · unfold addSignal
    simp only [updateStats]
    split_ifs <;> rfl
  · rw [htot, hafter]
    constructor
    · intro h
      have := intToString_injective _ _ h
      split_ifs at this with h1
      · exact absurd this (by push_cast; omega)
      · omega
    · intro h
      rw [if_neg (by omega)]

/-- The signal of the scenarios is plain. -/
theorem plainSignal_is_plain : PlainSignal (plainSignal (tens 8) "up" 5) := by decide

/-! ## The claims -/

/-- C1: under filter controls standing for criteria (an integer minimum
confidence, timeframe "all" or an integer, direction "all", "up" or "down"),
a signal is in the result of `filterSignalList` exactly when it is in the
given list, its confidence is at least the minimum, the timeframe is "all" or
equal to its timeframe, and the direction is "all" or equal to its direction.
With criteria 75, "all", "up" the signals (80, up, 5), (70, up, 5),
(90, down, 5) are filtered to the first one alone. -/
theorem filterSignalList_spec :
    (∀ (app : SignalBotApp) (c : FilterCriteria) (signals : List Signal) (s : Signal),
      s ∈ filterSignalList (setControls c app) signals ↔ s ∈ signals ∧ Satisfies c s) ∧
    (∀ app : SignalBotApp,
      filterSignalList
          (setControls { minConfidence := 75, timeframe := none, direction := some Direction.up } app)
          [plainSignal (tens 8) "up" 5, plainSignal (tens 7) "up" 5, plainSignal (tens 9) "down" 5]
        = [plainSignal (tens 8) "up" 5]) := by
  refine ⟨fun app c signals s => ?_, fun app => ?_⟩
  · rw [mem_filterSignalList_iff, filterSignalList_keeps_iff]
  · rfl

/-- C5, as the claim states it, fails: with a minimum confidence of 75,
`displaySignals` of a snapshot holding one signal of confidence 10, after
`displaySignals` of the empty snapshot, leaves the list without the signal. -/
theorem displaySignals_twice_drops_failing :
    storeSignals
        (displaySignals (some [plainSignal (tens 1) "up" 5])
          (displaySignals (some [])
            (setControls { minConfidence := 75, timeframe := none, direction := none } emptyApp)))
      ≠ [plainSignal (tens 1) "up" 5] := by
  decide

/-- C5, amended: `displaySignals` of S1 followed by `displaySignals` of S2
leaves the list holding exactly the signals of S2 that pass
`filterSignalList` under the current controls, in the order of S2 and
whatever S1 was: a signal is held exactly when it is in S2 and satisfies the
criteria, and the list holds exactly S2 when S2 is empty or every signal of
S2 satisfies the criteria. -/
theorem displaySignals_twice (app : SignalBotApp) (c : FilterCriteria)
    (S1 : Option (List Signal)) (S2 : List Signal) :
    storeSignals (displaySignals (some S2) (displaySignals S1 (setControls c app)))
      = filterSignalList (setControls c app) S2 ∧
    List.Sublist
      (storeSignals (displaySignals (some S2) (displaySignals S1 (setControls c app)))) S2 ∧
    (∀ s, s ∈ storeSignals (displaySignals (some S2) (displaySignals S1 (setControls c app)))
      ↔ s ∈ S2 ∧ Satisfies c s) ∧
    ((∀ s ∈ S2, Satisfies c s) →
      storeSignals (displaySignals (some S2) (displaySignals S1 (setControls c app))) = S2) ∧
    storeSignals (displaySignals (some []) (displaySignals S1 (setControls c app))) = [] := by
  have key : storeSignals (displaySignals (some S2) (displaySignals S1 (setControls c app)))
      = filterSignalList (setControls c app) S2 := by
    rw [storeSignals_displaySignals, filterSignalList_displaySignals]
  refine ⟨key, ?_, ?_, ?_, rfl⟩
  · rw [key]; exact List.filter_sublist _
  · intro s
    rw [key, mem_filterSignalList_iff, filterSignalList_keeps_iff]
  · intro hall
    rw [key]
    exact filterSignalList_eq_self _ _ fun s hs => (filterSignalList_keeps_iff app c s).mpr (hall s hs)

/-- Witness for C5 amended: a snapshot whose one signal satisfies the criteria
is held whole after it replaces another snapshot. -/
theorem displaySignals_twice_witness :
    storeSignals
        (displaySignals (some [plainSignal (tens 8) "up" 5])
          (displaySignals (some [plainSignal (tens 9) "down" 1])
            (setControls { minConfidence := 75, timeframe := none, direction := none } emptyApp)))
      = [plainSignal (tens 8) "up" 5] :=
  (displaySignals_twice emptyApp { minConfidence := 75, timeframe := none, direction := none }
    (some [plainSignal (tens 9) "down" 1]) [plainSignal (tens 8) "up" 5]).2.2.2.1
    (by
      intro s hs
      rw [List.mem_singleton] at hs
      subst hs
      exact (filterSignalList_keeps_iff emptyApp _ _).mp (by decide))

/-- C7: `onclose` sets the indicator to disconnected and adds exactly one
timeout, `connectWebSocket` after 5000 ms; `onerror` sets the indicator to
disconnected and adds none; so a close with an error before or after it
leaves exactly one more timeout pending, and when the pending timeouts come
due exactly one more socket is created than without the closure. -/
theorem close_schedules_one_reconnect (app : SignalBotApp) :
    (isConnected (onclose app) = false ∧
      (onclose app).timeouts
        = app.timeouts ++ [{ callback := Callback.connectWebSocket, delay := 5000 }]) ∧
    (isConnected (onerror app) = false ∧ (onerror app).timeouts = app.timeouts) ∧
    (isConnected (onerror (onclose app)) = false ∧
      (onerror (onclose app)).timeouts
        = app.timeouts ++ [{ callback := Callback.connectWebSocket, delay := 5000 }]) ∧
    (isConnected (onclose (onerror app)) = false ∧
      (onclose (onerror app)).timeouts
        = app.timeouts ++ [{ callback := Callback.connectWebSocket, delay := 5000 }]) ∧
    (runTimeouts (onerror (onclose app))).socketsCreated
      = (runTimeouts app).socketsCreated + 1 ∧
    (runTimeouts (onclose (onerror app))).socketsCreated
      = (runTimeouts app).socketsCreated + 1 ∧
    (runTimeouts (onerror app)).socketsCreated = (runTimeouts app).socketsCreated := by
  have e1 : (onclose app).timeouts
      = app.timeouts ++ [{ callback := Callback.connectWebSocket, delay := 5000 }] := by
    simp [onclose, updateConnectionStatus]
  have e2 : (onerror app).timeouts = app.timeouts := by
    simp [onerror, updateConnectionStatus]
  have e3 : (onerror (onclose app)).timeouts
      = app.timeouts ++ [{ callback := Callback.connectWebSocket, delay := 5000 }] := by
    simp [onclose, onerror, updateConnectionStatus]
  have e4 : (onclose (onerror app)).timeouts
      = app.timeouts ++ [{ callback := Callback.connectWebSocket, delay := 5000 }] := by
    simp [onclose, onerror, updateConnectionStatus]
  have s3 : (onerror (onclose app)).socketsCreated = app.socketsCreated := by
    simp [onclose, onerror, updateConnectionStatus]
  have s4 : (onclose (onerror app)).socketsCreated = app.socketsCreated := by
    simp [onclose, onerror, updateConnectionStatus]
  have s2 : (onerror app).socketsCreated = app.socketsCreated := by
    simp [onerror, updateConnectionStatus]
  refine ⟨⟨?_, e1⟩, ⟨?_, e2⟩, ⟨?_, e3⟩, ⟨?_, e4⟩, ?_, ?_, ?_⟩
  · simp [isConnected, onclose, updateConnectionStatus]
  · simp [isConnected, onerror, updateConnectionStatus]
  · simp [isConnected, onclose, onerror, updateConnectionStatus]
  · simp [isConnected, onclose, onerror, updateConnectionStatus]
  · simp only [runTimeouts, socketsCreated_foldl, e3, s3, List.length_append,
      List.length_singleton]
    omega
  · simp only [runTimeouts, socketsCreated_foldl, e4, s4, List.length_append,
      List.length_singleton]
    omega
  · simp only [runTimeouts, socketsCreated_foldl, e2, s2]

/-- C3 at a failing input: with controls that let every signal through,
`displaySignals` of a snapshot of 21 signals puts 21 cards in the list, and an
`addSignal` after it removes one card for the one it adds, so the list still
holds 21 cards, more than the 20 that `addSignal` limits the list to. -/
theorem displaySignals_exceeds_maxSignals :
    (signalCards
        (displaySignals (some (List.replicate 21 (plainSignal (tens 8) "up" 5)))
          emptyApp).elements.signalsList).length = 21 ∧
    (signalCards
        (addSignal (plainSignal (tens 9) "down" 1)
          (displaySignals (some (List.replicate 21 (plainSignal (tens 8) "up" 5)))
            emptyApp)).elements.signalsList).length = 21 := by
  decide!

/-- C2 at a failing input: with a minimum confidence of 75, `addSignal` of a
signal of confidence 10 leaves its card shown, although the filter of the
held signals by the same controls is empty; `filterSignals` run on the same
list hides the card. -/
theorem addSignal_shows_failing_signal :
    visibleSignals
        (addSignal (plainSignal (tens 1) "up" 5)
          (setControls { minConfidence := 75, timeframe := none, direction := none } emptyApp))
      = [plainSignal (tens 1) "up" 5] ∧
    filterSignalList
        (addSignal (plainSignal (tens 1) "up" 5)
          (setControls { minConfidence := 75, timeframe := none, direction := none } emptyApp))
        (storeSignals
          (addSignal (plainSignal (tens 1) "up" 5)
            (setControls { minConfidence := 75, timeframe := none, direction := none } emptyApp)))
      = [] ∧
    visibleSignals
        (filterSignals
          (addSignal (plainSignal (tens 1) "up" 5)
            (setControls { minConfidence := 75, timeframe := none, direction := none } emptyApp)))
      = [] := by
  decide!

/-- C6 at its failing inputs: whenever `JSON.parse` throws on the payload,
`onmessage` ends with that exception instead of returning: nothing in the
handler catches it. -/
theorem onmessage_rethrows_parse_error (jsonParse : String → Except String Inbound)
    (clock : Clock) (eventData : String) (app : SignalBotApp) (err : String)
    (h : jsonParse eventData = Except.error err) :
    onmessage jsonParse clock eventData app = Except.error err := by
  simp [onmessage, h, bind, Except.bind]

/-- Witness for C6: a payload that is not JSON, under a parser that rejects it. -/
theorem onmessage_rethrows_parse_error_witness :
    onmessage (fun _ => Except.error "SyntaxError") { now := 0, timeString := "00:00:00" }
        "not json" emptyApp
      = Except.error "SyntaxError" :=
  onmessage_rethrows_parse_error (fun _ => Except.error "SyntaxError")
    { now := 0, timeString := "00:00:00" } "not json" emptyApp "SyntaxError" rfl

/-- C8 at a failing input: a status response that carries both fields with
the value 0 changes nothing, whatever the statistics showed before; a field
with a value other than 0 is written. -/
theorem updateStats_skips_zero (app : SignalBotApp) :
    fetchStatus
        (some { total_signals_generated := some 0,
                success_rate := some { negative := false, digits := [], exponent := 0 } }) app
      = app ∧
    (fetchStatus (some { total_signals_generated := some 7, success_rate := none })
        app).elements.totalGenerated = "7" := by
  constructor
  · rfl
  · rfl

/-- C9 at a failing input: a signal of confidence 0.0000005, which prints as
"5e-7", against a minimum confidence of 3.  `filterSignalList` drops the
signal, the card test of `filterSignals` reads the confidence back as 5 and
shows the card. -/
theorem filters_disagree_on_small_confidence :
    (JSNumber.mk false [5] (-6)).WellFormed ∧
    (JSNumber.mk false [5] (-6)).numberToString = "5e-7" ∧
    parseInt "5e-7" = some 5 ∧
    filterSignalList
        (setControls { minConfidence := 3, timeframe := none, direction := none } emptyApp)
        [plainSignal (JSNumber.mk false [5] (-6)) "up" 5] = [] ∧
    shouldShow
        (setControls { minConfidence := 3, timeframe := none, direction := none } emptyApp)
        (createSignalElement (plainSignal (JSNumber.mk false [5] (-6)) "up" 5)) = true ∧
    visibleSignals
        (filterSignals
          (addSignal (plainSignal (JSNumber.mk false [5] (-6)) "up" 5)
            (setControls { minConfidence := 3, timeframe := none, direction := none } emptyApp)))
      = [plainSignal (JSNumber.mk false [5] (-6)) "up" 5] := by
  decide!

/-- C4 at a failing input: twelve signals whose `reason` holds the markup of
a `signal-card` element, pushed by `addSignal` onto the empty page.  Each
card counts twice in `querySelectorAll`, so the eleventh call removes the
element inside the oldest card and the twelfth removes the oldest card: the
list holds eleven signals after twelve calls, not twelve. -/
theorem addSignal_evicts_early_on_markup :
    matchingElements (signalMarkup (markupSignal 1)) = 1 ∧
    storeSignals
        (([1, 2, 3, 4, 5, 6, 7, 8, 9, 10, 11, 12].map markupSignal).foldl
          (fun a s => addSignal s a) emptyApp)
      = [12, 11, 10, 9, 8, 7, 6, 5, 4, 3, 2].map markupSignal ∧
    (signalCards
        (([1, 2, 3, 4, 5, 6, 7, 8, 9, 10, 11, 12].map markupSignal).foldl
          (fun a s => addSignal s a) emptyApp).elements.signalsList).length = 22 := by
  decide!

/-- C10 at a failing input: a signal whose `reason` holds the markup of a
`signal-card` element, pushed by `addSignal` onto the empty page (n = 0).
The count taken after the insertion finds the card and the element inside
it, so the total-generated element reads 2, not n + 1 = 1, while the list
holds one card. -/
theorem addSignal_totalGenerated_counts_markup :
    (signalCards emptyApp.elements.signalsList).length = 0 ∧
    (addSignal (markupSignal 5) emptyApp).elements.totalGenerated = "2" ∧
    storeSignals (addSignal (markupSignal 5) emptyApp) = [markupSignal 5] := by
  decide!

end SignalBot
